import Mathlib

/-!
Shallow embedding of the cross-instance shared-state layer of wme-sdk-plus
(`src/packages/shared-state/src/lib/shared-state-manager.ts`) and of the guard
logic of `SelectionModeManager.enterSelectionMode`
(`src/packages/module-ui--selection-mode/src/lib/selection-mode-manager.ts`).

JavaScript objects used as string-keyed records are embedded as association
lists with JS object semantics: lookup finds the unique entry, assignment
replaces the entry in place or appends a new one, `delete` removes the entry,
and `for ... in` iterates in list order. The implicit global clock
(`Date.now()`) is passed explicitly as an integer argument `now`, and the
process-wide `window` object is passed explicitly as a record mapping
namespace strings to storages.
-/

namespace WmeSdkPlus

/-- JSON-like values standing for the `any`-typed shared data and lock metadata. -/
inductive JsValue where
  | nullV : JsValue
  | boolV : Bool → JsValue
  | numV : Int → JsValue
  | strV : String → JsValue
  | arrV : List JsValue → JsValue
  | objV : List (String × JsValue) → JsValue

/-- Lookup of a key in a JS object record (`r[k]`); `none` stands for `undefined`. -/
def recGet {α : Type} : List (String × α) → String → Option α
  | [], _ => none
  | (k', v) :: rest, k => if k' = k then some v else recGet rest k

/-- Assignment `r[k] = v`: replaces the existing entry in place, else appends. -/
def recSet {α : Type} : List (String × α) → String → α → List (String × α)
  | [], k, v => [(k, v)]
  | (k', v') :: rest, k, v =>
      if k' = k then (k, v) :: rest else (k', v') :: recSet rest k v

/-- Deletion `delete r[k]`. -/
def recDelete {α : Type} (r : List (String × α)) (k : String) : List (String × α) :=
  r.filter fun p => decide (p.1 ≠ k)

/-- JavaScript truthiness of a `string | null` value: `null` and `""` are falsy. -/
def strTruthy : Option String → Bool
  | none => false
  | some s => decide (s ≠ "")

/-- `interface LockState`: a stored lock. `ownerId : string | null`,
`timestamp` a `Date.now()` value, `metadata` an optional record. -/
structure LockState where
  ownerId : Option String
  timestamp : Int
  metadata : Option JsValue

/-- `interface SharedStateStorage`: the per-namespace shared structure. -/
structure SharedStateStorage where
  version : String
  locks : List (String × LockState)
  data : List (String × JsValue)

/-- The configuration of one `SharedStateManager` instance (its private
fields; `_window` is passed explicitly to each operation). -/
structure SharedStateManager where
  _namespace : String
  _version : String
  _staleLockTimeout : Int
  _instanceId : String

/-- `interface LockAcquisitionResult`; an outer `none` stands for an absent
(optional) field. -/
structure LockAcquisitionResult where
  success : Bool
  currentOwnerId : Option (Option String) := none
  wasStale : Option Bool := none

/-- `_isLockStale`: `Date.now() - lock.timestamp > this._staleLockTimeout`. -/
def SharedStateManager._isLockStale (m : SharedStateManager) (now : Int)
    (lock : LockState) : Bool :=
  decide (now - lock.timestamp > m._staleLockTimeout)

/-- `acquireLock`, acting on the storage of this manager's namespace. -/
def SharedStateManager.acquireLockSt (m : SharedStateManager)
    (st : SharedStateStorage) (now : Int) (lockName : String)
    (metadata : Option JsValue) : LockAcquisitionResult × SharedStateStorage :=
  match recGet st.locks lockName with
  | some lock =>
      if strTruthy lock.ownerId && !(m._isLockStale now lock) then
        ({ success := false, currentOwnerId := some lock.ownerId,
           wasStale := some false }, st)
      else
        ({ success := true, wasStale := some (m._isLockStale now lock) },
         { st with locks :=
             recSet st.locks lockName ⟨some m._instanceId, now, metadata⟩ })
  | none =>
      ({ success := true, wasStale := some false },
       { st with locks :=
           recSet st.locks lockName ⟨some m._instanceId, now, metadata⟩ })

/-- `releaseLock`: deletes the lock only when this instance owns it. -/
def SharedStateManager.releaseLockSt (m : SharedStateManager)
    (st : SharedStateStorage) (lockName : String) : Bool × SharedStateStorage :=
  match recGet st.locks lockName with
  | some lock =>
      if lock.ownerId = some m._instanceId then
        (true, { st with locks := recDelete st.locks lockName })
      else (false, st)
  | none => (false, st)

/-- `hasLock`: `lock?.ownerId === this._instanceId` (no staleness check). -/
def SharedStateManager.hasLockSt (m : SharedStateManager)
    (st : SharedStateStorage) (lockName : String) : Bool :=
  match recGet st.locks lockName with
  | some lock => decide (lock.ownerId = some m._instanceId)
  | none => false

/-- `isLockHeld`: `lock != null && lock.ownerId != null && !this._isLockStale(lock)`. -/
def SharedStateManager.isLockHeldSt (m : SharedStateManager)
    (st : SharedStateStorage) (now : Int) (lockName : String) : Bool :=
  match recGet st.locks lockName with
  | some lock => lock.ownerId.isSome && !(m._isLockStale now lock)
  | none => false

/-- `getLockInfo`: `null` when the lock is absent or stale, else a copy. -/
def SharedStateManager.getLockInfoSt (m : SharedStateManager)
    (st : SharedStateStorage) (now : Int) (lockName : String) : Option LockState :=
  match recGet st.locks lockName with
  | some lock => if m._isLockStale now lock then none else some lock
  | none => none

/-- The `for ... in` loop of `releaseAllLocks`: deletes every entry owned by
`id` while counting. -/
def releaseOwnedLoop (id : String) :
    List (String × LockState) → Nat × List (String × LockState)
  | [] => (0, [])
  | (k, l) :: rest =>
      let r := releaseOwnedLoop id rest
      if l.ownerId = some id then (r.1 + 1, r.2) else (r.1, (k, l) :: r.2)

/-- `releaseAllLocks`: releases every lock owned by this instance,
returning the count. -/
def SharedStateManager.releaseAllLocksSt (m : SharedStateManager)
    (st : SharedStateStorage) : Nat × SharedStateStorage :=
  ((releaseOwnedLoop m._instanceId st.locks).1,
   { st with locks := (releaseOwnedLoop m._instanceId st.locks).2 })

/-- The `for ... in` loop of `cleanupStaleLocks`: deletes every stale entry
while counting. -/
def cleanupStaleLoop (m : SharedStateManager) (now : Int) :
    List (String × LockState) → Nat × List (String × LockState)
  | [] => (0, [])
  | (k, l) :: rest =>
      let r := cleanupStaleLoop m now rest
      if m._isLockStale now l then (r.1 + 1, r.2) else (r.1, (k, l) :: r.2)

/-- `cleanupStaleLocks`: removes every stale lock regardless of owner,
returning the count. -/
def SharedStateManager.cleanupStaleLocksSt (m : SharedStateManager)
    (st : SharedStateStorage) (now : Int) : Nat × SharedStateStorage :=
  ((cleanupStaleLoop m now st.locks).1,
   { st with locks := (cleanupStaleLoop m now st.locks).2 })

/-- `setSharedData`: `state.data[key] = value`. -/
def setSharedDataSt (st : SharedStateStorage) (key : String) (value : JsValue) :
    SharedStateStorage :=
  { st with data := recSet st.data key value }

/-- `getSharedData`: `state.data[key] !== undefined ? state.data[key] : defaultValue`. -/
def getSharedDataSt (st : SharedStateStorage) (key : String)
    (defaultValue : Option JsValue) : Option JsValue :=
  match recGet st.data key with
  | some v => some v
  | none => defaultValue

/-- `deleteSharedData`: removes the key when present, reporting whether it did. -/
def deleteSharedDataSt (st : SharedStateStorage) (key : String) :
    Bool × SharedStateStorage :=
  match recGet st.data key with
  | some _ => (true, { st with data := recDelete st.data key })
  | none => (false, st)

/-- `clearSharedData`: `state.data = {}`. -/
def clearSharedDataSt (st : SharedStateStorage) : SharedStateStorage :=
  { st with data := [] }

/-- The `for ... in` loop of `listLocks`: collects the names passing the
staleness filter, in iteration order. -/
def listLocksLoop (m : SharedStateManager) (now : Int) (includeStale : Bool) :
    List (String × LockState) → List String
  | [] => []
  | (k, l) :: rest =>
      if includeStale || !(m._isLockStale now l) then
        k :: listLocksLoop m now includeStale rest
      else listLocksLoop m now includeStale rest

/-- `listLocks`: the stored lock names, stale ones only when `includeStale`. -/
def SharedStateManager.listLocksSt (m : SharedStateManager)
    (st : SharedStateStorage) (now : Int) (includeStale : Bool) : List String :=
  listLocksLoop m now includeStale st.locks

/-- The process-wide `window` object, restricted to the namespace keys the
managers use: a record mapping namespace strings to shared storages. -/
abbrev Window := List (String × SharedStateStorage)

/-- The storage `_ensureSharedState` creates when the namespace is absent. -/
def SharedStateManager.freshStorage (m : SharedStateManager) : SharedStateStorage :=
  { version := m._version, locks := [], data := [] }

/-- `_ensureSharedState`: creates the namespace entry on `window` when absent. -/
def SharedStateManager._ensureSharedState (m : SharedStateManager) (w : Window) :
    Window :=
  match recGet w m._namespace with
  | some _ => w
  | none => recSet w m._namespace m.freshStorage

/-- `_getSharedState`: the storage at this manager's namespace (after
`_ensureSharedState`, so a fresh storage when the entry was absent). -/
def SharedStateManager._getSharedState (m : SharedStateManager) (w : Window) :
    SharedStateStorage :=
  match recGet w m._namespace with
  | some st => st
  | none => m.freshStorage

/-- `acquireLock` at the `window` level: the result together with the updated
`window`. -/
def SharedStateManager.acquireLock (m : SharedStateManager) (w : Window)
    (now : Int) (lockName : String) (metadata : Option JsValue) :
    LockAcquisitionResult × Window :=
  let w' := m._ensureSharedState w
  let r := m.acquireLockSt (m._getSharedState w') now lockName metadata
  (r.1, recSet w' m._namespace r.2)

/-- `releaseLock` at the `window` level. -/
def SharedStateManager.releaseLock (m : SharedStateManager) (w : Window)
    (lockName : String) : Bool × Window :=
  let w' := m._ensureSharedState w
  let r := m.releaseLockSt (m._getSharedState w') lockName
  (r.1, recSet w' m._namespace r.2)

/-- `setSharedData` at the `window` level. -/
def SharedStateManager.setSharedData (m : SharedStateManager) (w : Window)
    (key : String) (value : JsValue) : Window :=
  let w' := m._ensureSharedState w
  recSet w' m._namespace (setSharedDataSt (m._getSharedState w') key value)

/-- `getSharedData` at the `window` level. `_ensureSharedState`'s only effect
is to materialise the fresh storage `_getSharedState` already denotes, so the
returned value is computed on `_getSharedState` directly. -/
def SharedStateManager.getSharedData (m : SharedStateManager) (w : Window)
    (key : String) (defaultValue : Option JsValue) : Option JsValue :=
  getSharedDataSt (m._getSharedState w) key defaultValue

/-- `isLockHeld` at the `window` level. -/
def SharedStateManager.isLockHeld (m : SharedStateManager) (w : Window)
    (now : Int) (lockName : String) : Bool :=
  m.isLockHeldSt (m._getSharedState w) now lockName

/-- `hasLock` at the `window` level. -/
def SharedStateManager.hasLock (m : SharedStateManager) (w : Window)
    (lockName : String) : Bool :=
  m.hasLockSt (m._getSharedState w) lockName

/-- `clearSharedData` at the `window` level. -/
def SharedStateManager.clearSharedData (m : SharedStateManager) (w : Window) :
    Window :=
  let w' := m._ensureSharedState w
  recSet w' m._namespace (clearSharedDataSt (m._getSharedState w'))

/-- `listLocks` at the `window` level. -/
def SharedStateManager.listLocks (m : SharedStateManager) (w : Window)
    (now : Int) (includeStale : Bool) : List String :=
  m.listLocksSt (m._getSharedState w) now includeStale

/-- The error kinds `enterSelectionMode` can throw (§7 of the spec):
entering twice, and cross-instance lock contention. -/
inductive SelectionModeError where
  | alreadyActive : SelectionModeError
  | lockContention : SelectionModeError

/-- The state of a `SelectionModeManager` relevant to its entry guards:
its `_isActive` flag and its private `SharedStateManager`
(constructed with namespace `__WME_SDK_PLUS_SELECTION_MODE__` and
`staleLockTimeout` 60000). -/
structure SelectionModeManager where
  _isActive : Bool
  _sharedStateManager : SharedStateManager

/-- The guard prefix of `enterSelectionMode`: throw when already active
(before touching the lock), otherwise acquire the cross-instance
`selectionMode` lock and throw on contention; on success set `_isActive`.
The subsequent UI wiring (interceptors, sidebar control) acts on objects
outside this model and cannot change the outcome or these fields. -/
def SelectionModeManager.enterSelectionMode (s : SelectionModeManager)
    (w : Window) (now : Int) :
    Except SelectionModeError Unit × SelectionModeManager × Window :=
  if s._isActive then (Except.error SelectionModeError.alreadyActive, s, w)
  else
    let r := s._sharedStateManager.acquireLock w now "selectionMode" none
    if r.1.success then (Except.ok (), { s with _isActive := true }, r.2)
    else (Except.error SelectionModeError.lockContention, s, r.2)

/-- `isInSelectionMode`. -/
def SelectionModeManager.isInSelectionMode (s : SelectionModeManager) : Bool :=
  s._isActive

/-! ## Record lemmas -/

theorem recGet_recSet_self {α : Type} (r : List (String × α)) (k : String) (v : α) :
    recGet (recSet r k v) k = some v := by
  induction r with
  | nil => simp [recSet, recGet]
  | cons p rest ih =>
      obtain ⟨a, b⟩ := p
      by_cases h : a = k <;> simp [recSet, recGet, h, ih]

theorem recGet_recSet_ne {α : Type} (r : List (String × α)) (k k' : String) (v : α)
    (h : k' ≠ k) : recGet (recSet r k v) k' = recGet r k' := by
  induction r with
  | nil => simp [recSet, recGet, Ne.symm h]
  | cons p rest ih =>
      obtain ⟨a, b⟩ := p
      by_cases ha : a = k
      · subst ha
        simp [recSet, recGet, Ne.symm h]
      · simp [recSet, recGet, ha, ih]

theorem getState_set_self (m : SharedStateManager) (w : Window)
    (st : SharedStateStorage) :
    m._getSharedState (recSet w m._namespace st) = st := by
  simp [SharedStateManager._getSharedState, recGet_recSet_self]

theorem getState_set_other (mB : SharedStateManager) (w : Window) (ns : String)
    (st : SharedStateStorage) (h : ns ≠ mB._namespace) :
    mB._getSharedState (recSet w ns st) = mB._getSharedState w := by
  simp [SharedStateManager._getSharedState, recGet_recSet_ne _ _ _ _ (Ne.symm h)]

theorem getState_ensure (m : SharedStateManager) (w : Window) :
    m._getSharedState (m._ensureSharedState w) = m._getSharedState w := by
  unfold SharedStateManager._ensureSharedState
  cases h : recGet w m._namespace with
  | some st => rfl
  | none =>
      rw [getState_set_self]
      simp [SharedStateManager._getSharedState, h]

theorem getState_ensure_other (mA mB : SharedStateManager) (w : Window)
    (h : mA._namespace ≠ mB._namespace) :
    mB._getSharedState (mA._ensureSharedState w) = mB._getSharedState w := by
  unfold SharedStateManager._ensureSharedState
  cases hg : recGet w mA._namespace with
  | some st => rfl
  | none => exact getState_set_other mB w mA._namespace mA.freshStorage h

/-! ## The claims -/

/-- Claim C1, as stated, is false on the code: `hasLock` performs no
staleness check, so the instance whose id is still recorded as owner of a
stale lock is reported by `hasLock` as holding it. Concretely, with
`staleLockTimeout` 10, a lock acquired by instance `a` at time 0 and queried
at time 11 is stale, and yet `hasLock` returns `true`. -/
theorem hasLock_stale_counterexample :
    (SharedStateManager.mk "n" "v" 10 "a")._isLockStale 11
        ⟨some "a", 0, none⟩ = true ∧
    (SharedStateManager.mk "n" "v" 10 "a").hasLockSt
        ⟨"v", [("x", ⟨some "a", 0, none⟩)], []⟩ "x" = true := by
  constructor
  · rfl
  · rfl

/-- Claim C1 (amended): for every stored lock that is stale, `isLockHeld`
returns `false` and `getLockInfo` returns `null` for every instance, but
`hasLock` ignores staleness: it returns `true` exactly when the stored
`ownerId` equals the querying instance's id. -/
theorem stale_lock_queries (m : SharedStateManager) (st : SharedStateStorage)
    (now : Int) (lockName : String) (lock : LockState)
    (hget : recGet st.locks lockName = some lock)
    (hstale : m._isLockStale now lock = true) :
    m.isLockHeldSt st now lockName = false ∧
    m.getLockInfoSt st now lockName = none ∧
    m.hasLockSt st lockName = decide (lock.ownerId = some m._instanceId) := by
  refine ⟨?_, ?_, ?_⟩
  · simp [SharedStateManager.isLockHeldSt, hget, hstale]
  · simp [SharedStateManager.getLockInfoSt, hget, hstale]
  · simp [SharedStateManager.hasLockSt, hget]

/-- Witness for the amended C1 at a concrete stale lock. -/
theorem stale_lock_queries_holds :
    (SharedStateManager.mk "n" "v" 10 "a").isLockHeldSt
        ⟨"v", [("x", ⟨some "a", 0, none⟩)], []⟩ 11 "x" = false ∧
    (SharedStateManager.mk "n" "v" 10 "a").getLockInfoSt
        ⟨"v", [("x", ⟨some "a", 0, none⟩)], []⟩ 11 "x" = none ∧
    (SharedStateManager.mk "n" "v" 10 "a").hasLockSt
        ⟨"v", [("x", ⟨some "a", 0, none⟩)], []⟩ "x"
      = decide ((some "a" : Option String) = some "a") :=
  stale_lock_queries _ _ _ _ ⟨some "a", 0, none⟩ rfl rfl

/-- Claim C2: when the lock is absent or the stored lock is stale,
`acquireLock` stores a new lock owned by this instance, timestamped now,
carrying the given metadata, and returns success with `wasStale` true exactly
when a stored (stale) lock was replaced and false when the name was absent. -/
theorem acquireLock_absent_or_stale (m : SharedStateManager)
    (st : SharedStateStorage) (now : Int) (lockName : String)
    (metadata : Option JsValue)
    (h : recGet st.locks lockName = none ∨
         ∃ lock, recGet st.locks lockName = some lock ∧
           m._isLockStale now lock = true) :
    (m.acquireLockSt st now lockName metadata).1.success = true ∧
    (m.acquireLockSt st now lockName metadata).2 =
      { st with locks :=
          recSet st.locks lockName ⟨some m._instanceId, now, metadata⟩ } ∧
    (m.acquireLockSt st now lockName metadata).1.wasStale =
      some (recGet st.locks lockName).isSome := by
  rcases h with h | ⟨lock, hget, hstale⟩
  · simp [SharedStateManager.acquireLockSt, h]
  · simp [SharedStateManager.acquireLockSt, hget, hstale]

/-- Witness for C2 on a fresh (empty) storage: success with `wasStale` false. -/
theorem acquireLock_absent_or_stale_holds :
    ((SharedStateManager.mk "n" "v" 10 "a").acquireLockSt ⟨"v", [], []⟩ 5 "x"
        none).1.success = true ∧
    ((SharedStateManager.mk "n" "v" 10 "a").acquireLockSt ⟨"v", [], []⟩ 5 "x"
        none).2 =
      { version := "v", locks := recSet [] "x" ⟨some "a", 5, none⟩, data := [] } ∧
    ((SharedStateManager.mk "n" "v" 10 "a").acquireLockSt ⟨"v", [], []⟩ 5 "x"
        none).1.wasStale = some (recGet ([] : List (String × LockState)) "x").isSome :=
  acquireLock_absent_or_stale _ _ _ _ _ (Or.inl rfl)

/-- Claim C3: when the stored lock exists, has a (truthy) owner and is not
stale, `acquireLock` fails with `currentOwnerId` the stored owner, and the
storage is returned unchanged (the operation is total, so nothing is thrown). -/
theorem acquireLock_held_fails (m : SharedStateManager)
    (st : SharedStateStorage) (now : Int) (lockName : String)
    (metadata : Option JsValue) (lock : LockState) (owner : String)
    (hget : recGet st.locks lockName = some lock)
    (howner : lock.ownerId = some owner) (hne : owner ≠ "")
    (hfresh : m._isLockStale now lock = false) :
    (m.acquireLockSt st now lockName metadata).1 =
      { success := false, currentOwnerId := some lock.ownerId,
        wasStale := some false } ∧
    (m.acquireLockSt st now lockName metadata).2 = st := by
  have htruthy : strTruthy lock.ownerId = true := by
    simp [strTruthy, howner, hne]
  constructor <;> simp [SharedStateManager.acquireLockSt, hget, hfresh, htruthy]

/-- Witness for C3: a second instance contending on a fresh lock fails and
learns the first instance's id. -/
theorem acquireLock_held_fails_holds :
    ((SharedStateManager.mk "n" "v" 10 "b").acquireLockSt
        ⟨"v", [("x", ⟨some "a", 5, none⟩)], []⟩ 6 "x" none).1 =
      { success := false, currentOwnerId := some (some "a"),
        wasStale := some false } ∧
    ((SharedStateManager.mk "n" "v" 10 "b").acquireLockSt
        ⟨"v", [("x", ⟨some "a", 5, none⟩)], []⟩ 6 "x" none).2 =
      ⟨"v", [("x", ⟨some "a", 5, none⟩)], []⟩ :=
  acquireLock_held_fails _ _ _ _ _ ⟨some "a", 5, none⟩ "a" rfl rfl
    (by decide) rfl

/-- Claim C4: `releaseLock` deletes the lock and returns `true` exactly when
the stored lock exists and is owned by this instance; in every other case it
returns `false` and leaves the storage unchanged. -/
theorem releaseLock_owner_iff (m : SharedStateManager) (st : SharedStateStorage)
    (lockName : String) :
    ((m.releaseLockSt st lockName).1 = true ↔
      ∃ lock, recGet st.locks lockName = some lock ∧
        lock.ownerId = some m._instanceId) ∧
    ((m.releaseLockSt st lockName).1 = true →
      (m.releaseLockSt st lockName).2 =
        { st with locks := recDelete st.locks lockName }) ∧
    ((m.releaseLockSt st lockName).1 = false →
      (m.releaseLockSt st lockName).2 = st) := by
  cases hget : recGet st.locks lockName with
  | none => simp [SharedStateManager.releaseLockSt, hget]
  | some lock =>
      by_cases hown : lock.ownerId = some m._instanceId
      · simp [SharedStateManager.releaseLockSt, hget, hown]
      · simp [SharedStateManager.releaseLockSt, hget, hown]

/-- The loop of `releaseAllLocks` keeps exactly the locks not owned by `id`,
in order, and counts exactly the owned ones. -/
theorem releaseOwnedLoop_eq (id : String) :
    ∀ l : List (String × LockState),
      releaseOwnedLoop id l =
        ((l.filter fun p => decide (p.2.ownerId = some id)).length,
         l.filter fun p => !decide (p.2.ownerId = some id))
  | [] => rfl
  | (k, lk) :: rest => by
      have ih := releaseOwnedLoop_eq id rest
      by_cases h : lk.ownerId = some id <;>
        simp [releaseOwnedLoop, ih, h]

/-- Claim C5: `releaseAllLocks` removes exactly the locks owned by the calling
instance, returns their number, and leaves every other lock (and the data and
version fields) unchanged, in order. -/
theorem releaseAllLocks_exact (m : SharedStateManager)
    (st : SharedStateStorage) :
    (m.releaseAllLocksSt st).1 =
      (st.locks.filter fun p => decide (p.2.ownerId = some m._instanceId)).length ∧
    (m.releaseAllLocksSt st).2.locks =
      st.locks.filter (fun p => !decide (p.2.ownerId = some m._instanceId)) ∧
    (m.releaseAllLocksSt st).2.data = st.data ∧
    (m.releaseAllLocksSt st).2.version = st.version := by
  simp [SharedStateManager.releaseAllLocksSt, releaseOwnedLoop_eq]

/-- The loop of `cleanupStaleLocks` keeps exactly the non-stale locks, in
order, and counts exactly the stale ones. -/
theorem cleanupStaleLoop_eq (m : SharedStateManager) (now : Int) :
    ∀ l : List (String × LockState),
      cleanupStaleLoop m now l =
        ((l.filter fun p => m._isLockStale now p.2).length,
         l.filter fun p => !(m._isLockStale now p.2))
  | [] => rfl
  | (k, lk) :: rest => by
      have ih := cleanupStaleLoop_eq m now rest
      by_cases h : m._isLockStale now lk = true <;>
        simp at h <;>
        simp [cleanupStaleLoop, ih, h]

/-- Claim C6: `cleanupStaleLocks` removes exactly the locks whose age exceeds
`staleLockTimeout`, regardless of owner, returns their number, and leaves
every non-stale lock (and the data and version fields) unchanged, in order. -/
theorem cleanupStaleLocks_exact (m : SharedStateManager)
    (st : SharedStateStorage) (now : Int) :
    (m.cleanupStaleLocksSt st now).1 =
      (st.locks.filter fun p =>
        decide (now - p.2.timestamp > m._staleLockTimeout)).length ∧
    (m.cleanupStaleLocksSt st now).2.locks =
      st.locks.filter (fun p =>
        !decide (now - p.2.timestamp > m._staleLockTimeout)) ∧
    (m.cleanupStaleLocksSt st now).2.data = st.data ∧
    (m.cleanupStaleLocksSt st now).2.version = st.version := by
  simp [SharedStateManager.cleanupStaleLocksSt, cleanupStaleLoop_eq,
        SharedStateManager._isLockStale]

/-- Claim C7: `clearSharedData` empties the data mapping of the manager's
namespace but leaves the locks mapping untouched, so `listLocks` reports the
same names before and after, for either `includeStale` setting. -/
theorem clearSharedData_frame (m : SharedStateManager) (w : Window)
    (now : Int) (includeStale : Bool) :
    (m._getSharedState (m.clearSharedData w)).data = [] ∧
    (m._getSharedState (m.clearSharedData w)).locks =
      (m._getSharedState w).locks ∧
    m.listLocks (m.clearSharedData w) now includeStale =
      m.listLocks w now includeStale := by
  have h1 : m._getSharedState (m.clearSharedData w) =
      clearSharedDataSt (m._getSharedState w) := by
    rw [SharedStateManager.clearSharedData, getState_set_self, getState_ensure]
  refine ⟨?_, ?_, ?_⟩
  · rw [h1]; rfl
  · rw [h1]; rfl
  · simp [SharedStateManager.listLocks, h1, SharedStateManager.listLocksSt,
          clearSharedDataSt]

/-- `acquireLock` on a namespace whose storage has no entry under the lock
name always succeeds. -/
theorem acquireLock_success_of_absent (m : SharedStateManager) (w : Window)
    (now : Int) (lockName : String) (metadata : Option JsValue)
    (h : recGet (m._getSharedState w).locks lockName = none) :
    (m.acquireLock w now lockName metadata).1.success = true := by
  simp only [SharedStateManager.acquireLock]
  rw [getState_ensure]
  simp [SharedStateManager.acquireLockSt, h]

/-- Claim C8: managers with different namespace strings never observe each
other's data or locks. Starting from a `window` where B's namespace is not
yet materialised, A's `setSharedData` leaves B's read at the default value,
and a lock acquired through A is not held under B and remains acquirable
through B. -/
theorem namespace_isolation (mA mB : SharedStateManager) (w : Window)
    (key : String) (value : JsValue) (defaultValue : Option JsValue)
    (lockName : String) (now : Int) (metadata : Option JsValue)
    (hns : mA._namespace ≠ mB._namespace)
    (hfresh : recGet w mB._namespace = none) :
    mB.getSharedData (mA.setSharedData w key value) key defaultValue =
      defaultValue ∧
    mB.isLockHeld (mA.acquireLock w now lockName metadata).2 now lockName =
      false ∧
    (mB.acquireLock (mA.acquireLock w now lockName metadata).2 now lockName
        none).1.success = true := by
  have hBW : mB._getSharedState w = mB.freshStorage := by
    simp [SharedStateManager._getSharedState, hfresh]
  have hset : mB._getSharedState (mA.setSharedData w key value) =
      mB.freshStorage := by
    simp only [SharedStateManager.setSharedData]
    rw [getState_set_other _ _ _ _ hns, getState_ensure_other _ _ _ hns, hBW]
  have hacq : mB._getSharedState (mA.acquireLock w now lockName metadata).2 =
      mB.freshStorage := by
    simp only [SharedStateManager.acquireLock]
    rw [getState_set_other _ _ _ _ hns, getState_ensure_other _ _ _ hns, hBW]
  refine ⟨?_, ?_, ?_⟩
  · simp [SharedStateManager.getSharedData, hset, getSharedDataSt,
          SharedStateManager.freshStorage, recGet]
  · simp [SharedStateManager.isLockHeld, hacq, SharedStateManager.isLockHeldSt,
          SharedStateManager.freshStorage, recGet]
  · exact acquireLock_success_of_absent _ _ _ _ _ (by rw [hacq]; rfl)

/-- Witness for C8 on an empty `window` and two concrete managers. -/
theorem namespace_isolation_holds :
    (SharedStateManager.mk "nB" "v" 10 "b").getSharedData
        ((SharedStateManager.mk "nA" "v" 10 "a").setSharedData [] "k"
          (JsValue.strV "v1")) "k" (some (JsValue.strV "d")) =
      some (JsValue.strV "d") ∧
    (SharedStateManager.mk "nB" "v" 10 "b").isLockHeld
        ((SharedStateManager.mk "nA" "v" 10 "a").acquireLock [] 5 "x" none).2
        5 "x" = false ∧
    ((SharedStateManager.mk "nB" "v" 10 "b").acquireLock
        ((SharedStateManager.mk "nA" "v" 10 "a").acquireLock [] 5 "x" none).2
        5 "x" none).1.success = true :=
  namespace_isolation _ _ [] "k" (JsValue.strV "v1") (some (JsValue.strV "d"))
    "x" 5 none (by decide) rfl

/-- Claim C9: `enterSelectionMode` on an active manager throws the
already-active error before touching the cross-instance lock, leaving the
manager and the shared `window` exactly as they were; on an inactive manager
whose `selectionMode` lock acquisition fails, it throws the lock-contention
error without activating. -/
theorem enterSelectionMode_guards (s : SelectionModeManager) (w : Window)
    (now : Int) :
    (s._isActive = true →
      s.enterSelectionMode w now =
        (Except.error SelectionModeError.alreadyActive, s, w)) ∧
    (s._isActive = false →
      (s._sharedStateManager.acquireLock w now "selectionMode" none).1.success
          = false →
      s.enterSelectionMode w now =
        (Except.error SelectionModeError.lockContention, s,
         (s._sharedStateManager.acquireLock w now "selectionMode" none).2)) := by
  constructor
  · intro h
    simp [SelectionModeManager.enterSelectionMode, h]
  · intro h hfail
    simp [SelectionModeManager.enterSelectionMode, h, hfail]

/-- Claim C10: the owner's own `acquireLock` on its still-fresh lock fails,
reports the owner's own id as `currentOwnerId`, and leaves the storage (and
so the stored timestamp) unchanged; and for any later time farther than
`staleLockTimeout` from that unchanged timestamp the lock is stale. -/
theorem acquireLock_not_reentrant (m : SharedStateManager)
    (st : SharedStateStorage) (now : Int) (lockName : String)
    (metadata : Option JsValue) (lock : LockState)
    (hget : recGet st.locks lockName = some lock)
    (hown : lock.ownerId = some m._instanceId)
    (hid : m._instanceId ≠ "")
    (hfresh : m._isLockStale now lock = false) :
    (m.acquireLockSt st now lockName metadata).1.success = false ∧
    (m.acquireLockSt st now lockName metadata).1.currentOwnerId =
      some (some m._instanceId) ∧
    (m.acquireLockSt st now lockName metadata).2 = st ∧
    ∀ later : Int, later - lock.timestamp > m._staleLockTimeout →
      m._isLockStale later lock = true := by
  have htruthy : strTruthy lock.ownerId = true := by
    simp [strTruthy, hown, hid]
  refine ⟨?_, ?_, ?_, fun later h => ?_⟩
  · simp [SharedStateManager.acquireLockSt, hget, hfresh, htruthy]
  · simp [SharedStateManager.acquireLockSt, hget, hfresh, htruthy, hown,
          strTruthy, hid]
  · simp [SharedStateManager.acquireLockSt, hget, hfresh, htruthy]
  · simpa [SharedStateManager._isLockStale] using h

/-- Witness for C10: the owner re-acquiring its own fresh lock at a concrete
input fails against itself, and the lock is stale at a concrete later time. -/
theorem acquireLock_not_reentrant_holds :
    ((SharedStateManager.mk "n" "v" 10 "a").acquireLockSt
        ⟨"v", [("x", ⟨some "a", 0, none⟩)], []⟩ 5 "x" none).1.success = false ∧
    ((SharedStateManager.mk "n" "v" 10 "a").acquireLockSt
        ⟨"v", [("x", ⟨some "a", 0, none⟩)], []⟩ 5 "x" none).1.currentOwnerId =
      some (some "a") ∧
    ((SharedStateManager.mk "n" "v" 10 "a").acquireLockSt
        ⟨"v", [("x", ⟨some "a", 0, none⟩)], []⟩ 5 "x" none).2 =
      ⟨"v", [("x", ⟨some "a", 0, none⟩)], []⟩ ∧
    ∀ later : Int, later - (0 : Int) > 10 →
      (SharedStateManager.mk "n" "v" 10 "a")._isLockStale later
        ⟨some "a", 0, none⟩ = true :=
  acquireLock_not_reentrant _ _ _ _ _ ⟨some "a", 0, none⟩ rfl rfl (by decide)
    rfl

end WmeSdkPlus
